import Mathlib

/-
  Verification of the cocobase-go client SDK.

  Shallow embedding of the Go sources:

  * `cocobase/query.go`   — the fluent `QueryBuilder` (AND filters, OR groups,
    pagination, sorting) and `Build`, which serializes the builder through
    `url.Values.Encode` of `net/url`.
  * `client.go`           — `Client` construction, token management
    (`SetToken` / `GetToken` / `IsAuthenticated`) and `Client.request`
    (request signing and error mapping).
  * `cocobase/auth.go`    — `Logout`, `GetCurrentUser`, `UpdateUser`.
  * `cocobase/errors.go`  — `APIError` and `getErrorSuggestion`.
  * `cocobase/realtime.go`— the read-loop goroutine of `WatchCollection` and
    `Connection.Close` / `Connection.IsClosed`.

  Modelling conventions:
  * Go maps (`map[string]string`, `map[string][]string`) are association
    lists whose keys are unique; `m[k] = v` is `mapInsert`.  The Go map
    iteration order is unspecified, so every statement about code that
    ranges over a map is quantified over an arbitrary permutation of the
    association list (the "enumeration").
  * Go `interface{}` values passed to `fmt.Sprintf("%v", ...)` are `GoVal`
    (string / int / bool), with `goFmt` the `%v` rendering.
  * Go byte strings are Lean `String`s; byte-level operations
    (`url.QueryEscape`, `sort.Strings`) go through the UTF-8 encoding
    `utf8Bytes` of each code point.  UTF-8 byte order coincides with code
    point order, so `lexLe` on `String.data` is exactly the Go byte-wise
    string order.
  * I/O effects (HTTP transport, JSON decoding of response bodies, the
    WebSocket read stream) are oracle parameters of the embedded
    functions; the functions additionally return the list of HTTP
    requests they issue, so "no request is sent" is expressible.
-/

namespace Cocobase

/-- Go `interface{}` values that SDK call sites pass to the
query-builder methods: strings, ints and bools. -/
inductive GoVal where
  | str (s : String)
  | int (n : Int)
  | bool (b : Bool)
deriving DecidableEq

/-- Go `fmt.Sprintf("%v", v)`: strings print verbatim, ints in decimal,
bools as `true` / `false`. -/
def goFmt : GoVal → String
  | .str s => s
  | .int n => toString n
  | .bool b => if b then "true" else "false"

/-- Go map assignment `m[k] = v` on the association-list model of
`map[string]β`: replace the binding of `k` if present, else add one. -/
def mapInsert {β : Type} : List (String × β) → String → β → List (String × β)
  | [], k, v => [(k, v)]
  | p :: rest, k, v => if p.1 == k then (k, v) :: rest else p :: mapInsert rest k v

/-- Go `delete(m, k)` on the association-list model. -/
def mapDelete {β : Type} (m : List (String × β)) (k : String) : List (String × β) :=
  m.filter (fun p => !(p.1 == k))

/-- Byte-wise lexicographic order on code-point lists; because UTF-8
preserves code-point order this is exactly the order `sort.Strings`
uses on the encoded bytes. -/
def lexLe : List Char → List Char → Bool
  | [], _ => true
  | _ :: _, [] => false
  | a :: as, b :: bs =>
    if a.toNat < b.toNat then true
    else if b.toNat < a.toNat then false
    else lexLe as bs

/-- The Go string order (`s <= t` as `sort.Strings` sees it). -/
def strLe (a b : String) : Bool := lexLe a.data b.data

/-- Go `strLe` as a relation, for use with `List.insertionSort`. -/
def strLeRel (a b : String) : Prop := strLe a b = true

instance : DecidableRel strLeRel :=
  fun a b => inferInstanceAs (Decidable (strLe a b = true))

theorem lexLe_total : ∀ a b : List Char, lexLe a b = true ∨ lexLe b a = true
  | [], _ => Or.inl rfl
  | _ :: _, [] => Or.inr rfl
  | a :: as, b :: bs => by
    by_cases h1 : a.toNat < b.toNat
    · left; simp [lexLe, h1]
    · by_cases h2 : b.toNat < a.toNat
      · right; simp [lexLe, h1, h2]
      · rcases lexLe_total as bs with h | h
        · left; simp [lexLe, h1, h2, h]
        · right; simp [lexLe, h1, h2, h]

theorem lexLe_trans : ∀ a b c : List Char,
    lexLe a b = true → lexLe b c = true → lexLe a c = true
  | [], _, _ => fun _ _ => rfl
  | _ :: _, [], _ => fun h _ => by simp [lexLe] at h
  | _ :: _, _ :: _, [] => fun _ h2 => by simp [lexLe] at h2
  | a :: as, b :: bs, c :: cs => fun h1 h2 => by
    by_cases hab : a.toNat < b.toNat
    · by_cases hbc : b.toNat < c.toNat
      · simp [lexLe, Nat.lt_trans hab hbc]
      · by_cases hcb : c.toNat < b.toNat
        · simp [lexLe, hbc, hcb] at h2
        · have hac : a.toNat < c.toNat := by omega
          simp [lexLe, hac]
    · by_cases hba : b.toNat < a.toNat
      · simp [lexLe, hab, hba] at h1
      · have habeq : a.toNat = b.toNat := by omega
        simp only [lexLe, if_neg hab, if_neg hba] at h1
        by_cases hbc : b.toNat < c.toNat
        · have : a.toNat < c.toNat := by omega
          simp [lexLe, this]
        · by_cases hcb : c.toNat < b.toNat
          · simp [lexLe, hbc, hcb] at h2
          · simp only [lexLe, if_neg hbc, if_neg hcb] at h2
            have hac : ¬ a.toNat < c.toNat := by omega
            have hca : ¬ c.toNat < a.toNat := by omega
            simp only [lexLe, if_neg hac, if_neg hca]
            exact lexLe_trans as bs cs h1 h2

theorem char_eq_of_toNat_eq {a b : Char} (h : a.toNat = b.toNat) : a = b := by
  have := congrArg Char.ofNat h
  rwa [Char.ofNat_toNat, Char.ofNat_toNat] at this

theorem lexLe_antisymm : ∀ a b : List Char,
    lexLe a b = true → lexLe b a = true → a = b
  | [], [] => fun _ _ => rfl
  | [], _ :: _ => fun _ h2 => by simp [lexLe] at h2
  | _ :: _, [] => fun h1 _ => by simp [lexLe] at h1
  | a :: as, b :: bs => fun h1 h2 => by
    by_cases hab : a.toNat < b.toNat
    · simp [lexLe, hab, Nat.lt_asymm hab] at h2
    · by_cases hba : b.toNat < a.toNat
      · simp [lexLe, hab, hba] at h1
      · have habeq : a.toNat = b.toNat := by omega
        simp only [lexLe, if_neg hab, if_neg hba] at h1
        simp only [lexLe, if_neg hba, if_neg hab] at h2
        rw [char_eq_of_toNat_eq habeq, lexLe_antisymm as bs h1 h2]

instance : IsTotal String strLeRel :=
  ⟨fun a b => lexLe_total a.data b.data⟩

instance : IsTrans String strLeRel :=
  ⟨fun a b c => lexLe_trans a.data b.data c.data⟩

instance : IsAntisymm String strLeRel :=
  ⟨fun a b h1 h2 => String.ext (lexLe_antisymm a.data b.data h1 h2)⟩

/-- UTF-8 encoding of one code point: the bytes Go sees in the string. -/
def utf8Bytes (c : Char) : List Nat :=
  let n := c.toNat
  if n < 0x80 then [n]
  else if n < 0x800 then [0xC0 + n / 0x40, 0x80 + n % 0x40]
  else if n < 0x10000 then
    [0xE0 + n / 0x1000, 0x80 + (n / 0x40) % 0x40, 0x80 + n % 0x40]
  else
    [0xF0 + n / 0x40000, 0x80 + (n / 0x1000) % 0x40,
     0x80 + (n / 0x40) % 0x40, 0x80 + n % 0x40]

/-- Bytes that Go `shouldEscape(c, encodeQueryComponent)` leaves unescaped:
ASCII alphanumerics and `-`, `_`, `.`, `~`. -/
def isUnreservedByte (b : Nat) : Bool :=
  (65 ≤ b && b ≤ 90) || (97 ≤ b && b ≤ 122) || (48 ≤ b && b ≤ 57) ||
  b == 45 || b == 95 || b == 46 || b == 126

/-- Upper-case hex digit, as in the Go table of hex digits. -/
def upperHexDigit (n : Nat) : Char :=
  if n < 10 then Char.ofNat (48 + n) else Char.ofNat (55 + n)

/-- One byte of Go `net/url` query escaping: unreserved bytes pass
through, space becomes `+`, everything else becomes `%XX`. -/
def escapeByte (b : Nat) : List Char :=
  if isUnreservedByte b then [Char.ofNat b]
  else if b == 32 then ['+']
  else ['%', upperHexDigit (b / 16), upperHexDigit (b % 16)]

/-- Go `url.QueryEscape`: escape every byte of the UTF-8 encoding. -/
def queryEscape (s : String) : String :=
  String.mk ((s.data.flatMap utf8Bytes).flatMap escapeByte)

/-- Go `QueryBuilder` (query.go): AND filters are a `map[string]string`,
OR conditions a `map[string][]string` keyed by group name, plus
pagination and sorting fields. -/
structure QueryBuilder where
  filters : List (String × String)
  orFilters : List (String × List String)
  limit : Int
  offset : Int
  sort : String
  order : String
deriving DecidableEq

/-- Go `NewQuery()`: empty maps, zero pagination, empty sort fields. -/
def NewQuery : QueryBuilder :=
  { filters := [], orFilters := [], limit := 0, offset := 0, sort := "", order := "" }

/-- Go `Where(field, value)`: equality filter stored under `field`. -/
def QueryBuilder.Where (qb : QueryBuilder) (field : String) (value : GoVal) : QueryBuilder :=
  { qb with filters := mapInsert qb.filters field (goFmt value) }

/-- Go `Equals` is an alias for `Where`. -/
def QueryBuilder.Equals (qb : QueryBuilder) (field : String) (value : GoVal) : QueryBuilder :=
  qb.Where field value

/-- Go `NotEquals(field, value)`: stored under `field + "_ne"`. -/
def QueryBuilder.NotEquals (qb : QueryBuilder) (field : String) (value : GoVal) : QueryBuilder :=
  { qb with filters := mapInsert qb.filters (field ++ "_ne") (goFmt value) }

/-- Go `GreaterThan(field, value)`: stored under `field + "_gt"`. -/
def QueryBuilder.GreaterThan (qb : QueryBuilder) (field : String) (value : GoVal) : QueryBuilder :=
  { qb with filters := mapInsert qb.filters (field ++ "_gt") (goFmt value) }

/-- Go `GreaterThanOrEqual(field, value)`: stored under `field + "_gte"`. -/
def QueryBuilder.GreaterThanOrEqual (qb : QueryBuilder) (field : String) (value : GoVal) :
    QueryBuilder :=
  { qb with filters := mapInsert qb.filters (field ++ "_gte") (goFmt value) }

/-- Go `LessThan(field, value)`: stored under `field + "_lt"`. -/
def QueryBuilder.LessThan (qb : QueryBuilder) (field : String) (value : GoVal) : QueryBuilder :=
  { qb with filters := mapInsert qb.filters (field ++ "_lt") (goFmt value) }

/-- Go `LessThanOrEqual(field, value)`: stored under `field + "_lte"`. -/
def QueryBuilder.LessThanOrEqual (qb : QueryBuilder) (field : String) (value : GoVal) :
    QueryBuilder :=
  { qb with filters := mapInsert qb.filters (field ++ "_lte") (goFmt value) }

/-- Go `Between(field, min, max)` = `GreaterThanOrEqual` then `LessThanOrEqual`. -/
def QueryBuilder.Between (qb : QueryBuilder) (field : String) (lo hi : GoVal) : QueryBuilder :=
  (qb.GreaterThanOrEqual field lo).LessThanOrEqual field hi

/-- Go `Contains(field, substring)`: stored under `field + "_contains"`. -/
def QueryBuilder.Contains (qb : QueryBuilder) (field substring : String) : QueryBuilder :=
  { qb with filters := mapInsert qb.filters (field ++ "_contains") substring }

/-- Go `StartsWith(field, p)`: stored under `field + "_startswith"`. -/
def QueryBuilder.StartsWith (qb : QueryBuilder) (field p : String) : QueryBuilder :=
  { qb with filters := mapInsert qb.filters (field ++ "_startswith") p }

/-- Go `EndsWith(field, suffix)`: stored under `field + "_endswith"`. -/
def QueryBuilder.EndsWith (qb : QueryBuilder) (field suffix : String) : QueryBuilder :=
  { qb with filters := mapInsert qb.filters (field ++ "_endswith") suffix }

/-- Go `Search(term, fields...)`: fields joined by `__or__`, suffix `_contains`. -/
def QueryBuilder.Search (qb : QueryBuilder) (searchTerm : String) (fields : List String) :
    QueryBuilder :=
  { qb with filters :=
      mapInsert qb.filters (String.intercalate "__or__" fields ++ "_contains") searchTerm }

/-- Go `In(field, values...)`: stored under `field + "_in"`, values `%v`-formatted
and joined by commas. -/
def QueryBuilder.In (qb : QueryBuilder) (field : String) (values : List GoVal) : QueryBuilder :=
  { qb with filters :=
      mapInsert qb.filters (field ++ "_in") (String.intercalate "," (values.map goFmt)) }

/-- Go `NotIn(field, values...)`: stored under `field + "_notin"`. -/
def QueryBuilder.NotIn (qb : QueryBuilder) (field : String) (values : List GoVal) : QueryBuilder :=
  { qb with filters :=
      mapInsert qb.filters (field ++ "_notin") (String.intercalate "," (values.map goFmt)) }

/-- Go `IsNull(field)`: stored under `field + "_isnull"` with value `"true"`. -/
def QueryBuilder.IsNull (qb : QueryBuilder) (field : String) : QueryBuilder :=
  { qb with filters := mapInsert qb.filters (field ++ "_isnull") "true" }

/-- Go `IsNotNull(field)`: stored under `field + "_isnull"` with value `"false"`. -/
def QueryBuilder.IsNotNull (qb : QueryBuilder) (field : String) : QueryBuilder :=
  { qb with filters := mapInsert qb.filters (field ++ "_isnull") "false" }

/-- Go `OrBuilder`: the fluent OR-condition builder; holds the parent
builder (by value, since the embedding is purely functional) and the
group name. -/
structure OrBuilder where
  qb : QueryBuilder
  groupName : String

/-- Go `Or()`: unnamed OR group. -/
def QueryBuilder.Or (qb : QueryBuilder) : OrBuilder :=
  { qb := qb, groupName := "" }

/-- Go `OrGroup(name)`: named OR group. -/
def QueryBuilder.OrGroup (qb : QueryBuilder) (groupName : String) : OrBuilder :=
  { qb := qb, groupName := groupName }

/-- Go `OrBuilder.addCondition`: serialize `prefix + key + "=" + value` and
append it to the slice of that group in `orFilters`. -/
def OrBuilder.addCondition (ob : OrBuilder) (field operator : String) (value : GoVal) :
    OrBuilder :=
  let key := if operator == "" then field else field ++ "_" ++ operator
  let prefixStr := if ob.groupName == "" then "[or]" else "[or:" ++ ob.groupName ++ "]"
  let filterStr := prefixStr ++ key ++ "=" ++ goFmt value
  let old := (ob.qb.orFilters.lookup ob.groupName).getD []
  { ob with qb :=
      { ob.qb with orFilters := mapInsert ob.qb.orFilters ob.groupName (old ++ [filterStr]) } }

/-- Go `OrBuilder.Where` — equality OR condition. -/
def OrBuilder.Where (ob : OrBuilder) (field : String) (value : GoVal) : OrBuilder :=
  ob.addCondition field "" value

/-- Go `OrBuilder.Equals` is an alias for `OrBuilder.Where`. -/
def OrBuilder.Equals (ob : OrBuilder) (field : String) (value : GoVal) : OrBuilder :=
  ob.Where field value

/-- Go `OrBuilder.NotEquals`. -/
def OrBuilder.NotEquals (ob : OrBuilder) (field : String) (value : GoVal) : OrBuilder :=
  ob.addCondition field "ne" value

/-- Go `OrBuilder.GreaterThan`. -/
def OrBuilder.GreaterThan (ob : OrBuilder) (field : String) (value : GoVal) : OrBuilder :=
  ob.addCondition field "gt" value

/-- Go `OrBuilder.GreaterThanOrEqual`. -/
def OrBuilder.GreaterThanOrEqual (ob : OrBuilder) (field : String) (value : GoVal) : OrBuilder :=
  ob.addCondition field "gte" value

/-- Go `OrBuilder.LessThan`. -/
def OrBuilder.LessThan (ob : OrBuilder) (field : String) (value : GoVal) : OrBuilder :=
  ob.addCondition field "lt" value

/-- Go `OrBuilder.LessThanOrEqual`. -/
def OrBuilder.LessThanOrEqual (ob : OrBuilder) (field : String) (value : GoVal) : OrBuilder :=
  ob.addCondition field "lte" value

/-- Go `OrBuilder.Contains`. -/
def OrBuilder.Contains (ob : OrBuilder) (field substring : String) : OrBuilder :=
  ob.addCondition field "contains" (GoVal.str substring)

/-- Go `OrBuilder.StartsWith`. -/
def OrBuilder.StartsWith (ob : OrBuilder) (field p : String) : OrBuilder :=
  ob.addCondition field "startswith" (GoVal.str p)

/-- Go `OrBuilder.EndsWith`. -/
def OrBuilder.EndsWith (ob : OrBuilder) (field suffix : String) : OrBuilder :=
  ob.addCondition field "endswith" (GoVal.str suffix)

/-- Go `OrBuilder.IsNull` passes the Go bool `true` through `%v`. -/
def OrBuilder.IsNull (ob : OrBuilder) (field : String) : OrBuilder :=
  ob.addCondition field "isnull" (GoVal.bool true)

/-- Go `OrBuilder.IsNotNull`. -/
def OrBuilder.IsNotNull (ob : OrBuilder) (field : String) : OrBuilder :=
  ob.addCondition field "isnull" (GoVal.bool false)

/-- Go `Done()` returns the parent builder. -/
def OrBuilder.Done (ob : OrBuilder) : QueryBuilder := ob.qb

/-- Go `Limit(n)`. -/
def QueryBuilder.Limit (qb : QueryBuilder) (limit : Int) : QueryBuilder :=
  { qb with limit := limit }

/-- Go `Offset(n)`. -/
def QueryBuilder.Offset (qb : QueryBuilder) (offset : Int) : QueryBuilder :=
  { qb with offset := offset }

/-- Go `Page(page, perPage)`: pages below 1 are clamped to 1; `limit`
becomes `perPage`, `offset` becomes `(page-1)*perPage`. -/
def QueryBuilder.Page (qb : QueryBuilder) (page perPage : Int) : QueryBuilder :=
  let page := if page < 1 then 1 else page
  { qb with limit := perPage, offset := (page - 1) * perPage }

/-- Go `OrderBy(field)`: ascending by default. -/
def QueryBuilder.OrderBy (qb : QueryBuilder) (field : String) : QueryBuilder :=
  { qb with sort := field, order := "asc" }

/-- Go `OrderByAsc(field)`. -/
def QueryBuilder.OrderByAsc (qb : QueryBuilder) (field : String) : QueryBuilder :=
  { qb with sort := field, order := "asc" }

/-- Go `OrderByDesc(field)`. -/
def QueryBuilder.OrderByDesc (qb : QueryBuilder) (field : String) : QueryBuilder :=
  { qb with sort := field, order := "desc" }

/-- Go `Asc()`. -/
def QueryBuilder.Asc (qb : QueryBuilder) : QueryBuilder := { qb with order := "asc" }

/-- Go `Desc()`. -/
def QueryBuilder.Desc (qb : QueryBuilder) : QueryBuilder := { qb with order := "desc" }

/-- Go `Active()` = `IsNull("deletedAt")`. -/
def QueryBuilder.Active (qb : QueryBuilder) : QueryBuilder := qb.IsNull "deletedAt"

/-- Go `Deleted()` = `IsNotNull("deletedAt")`. -/
def QueryBuilder.Deleted (qb : QueryBuilder) : QueryBuilder := qb.IsNotNull "deletedAt"

/-- Go `Recent()` = `OrderByDesc("created_at")`. -/
def QueryBuilder.Recent (qb : QueryBuilder) : QueryBuilder := qb.OrderByDesc "created_at"

/-- Go `Oldest()` = `OrderByAsc("created_at")`. -/
def QueryBuilder.Oldest (qb : QueryBuilder) : QueryBuilder := qb.OrderByAsc "created_at"

/-- The values stored in a `url.Values` under key `k`, in the order the
`Add` calls appended them: the Go `v[k]` slice for the `Add` sequence `ps`. -/
def collect (ps : List (String × String)) (k : String) : List String :=
  (ps.filter (fun p => p.1 == k)).map Prod.snd

/-- The distinct keys of the `Add` sequence, sorted as `sort.Strings`
does inside `url.Values.Encode`. -/
def sortedKeys (ps : List (String × String)) : List String :=
  List.insertionSort strLeRel (ps.map Prod.fst).dedup

/-- The key/value pairs in the order `url.Values.Encode` writes them:
keys sorted, and under each key the values in `Add` order. -/
def encodedEntries (ps : List (String × String)) : List (String × String) :=
  (sortedKeys ps).flatMap (fun k => (collect ps k).map (fun v => (k, v)))

/-- Go `url.Values.Encode` applied to the `Add` sequence `ps`: each entry
rendered as `QueryEscape(k) + "=" + QueryEscape(v)`, joined by `&`. -/
def encodeParams (ps : List (String × String)) : String :=
  String.intercalate "&"
    ((encodedEntries ps).map (fun p => queryEscape p.1 ++ "=" ++ queryEscape p.2))

/-- Split at the first `=`, as `strings.SplitN(s, "=", 2)`; `none` when
the separator does not occur (`len(parts) == 1`). -/
def splitEqFirst : List Char → Option (List Char × List Char)
  | [] => none
  | c :: cs =>
    if c == '=' then some ([], cs)
    else match splitEqFirst cs with
      | some (a, b) => some (c :: a, b)
      | none => none

/-- An OR filter string becomes an `Add`ed pair exactly when it
contains `=` (query.go lines 348-351). -/
def parseOrFilter (s : String) : Option (String × String) :=
  match splitEqFirst s.data with
  | some (a, b) => some (String.mk a, String.mk b)
  | none => none

/-- The pairs one OR group contributes to the `Add` sequence, in slice
order. -/
def orGroupEntries (g : String × List String) : List (String × String) :=
  g.2.filterMap parseOrFilter

/-- The pagination `Add`s: `limit` then `offset`, each only when
strictly positive (query.go lines 356-361). -/
def paginationParams (qb : QueryBuilder) : List (String × String) :=
  (if qb.limit > 0 then [("limit", toString qb.limit)] else []) ++
  (if qb.offset > 0 then [("offset", toString qb.offset)] else [])

/-- The sorting `Add`s: `sort` when non-empty, then `order` when
non-empty (query.go lines 364-369). -/
def sortParams (qb : QueryBuilder) : List (String × String) :=
  if qb.sort != "" then
    ("sort", qb.sort) :: (if qb.order != "" then [("order", qb.order)] else [])
  else []

/-- The whole `Add` sequence of `Build` for one enumeration `fEnum` of
the `filters` map and one enumeration `oEnum` of the `orFilters` map:
AND filters, then all OR groups, then pagination, then sorting. -/
def buildAddList (fEnum : List (String × String)) (oEnum : List (String × List String))
    (qb : QueryBuilder) : List (String × String) :=
  fEnum ++ oEnum.flatMap orGroupEntries ++ paginationParams qb ++ sortParams qb

/-- Go `Build()` under a particular iteration order of the two Go maps. -/
def buildWith (qb : QueryBuilder) (fEnum : List (String × String))
    (oEnum : List (String × List String)) : String :=
  encodeParams (buildAddList fEnum oEnum qb)

/-- Go `Build()` at the canonical (insertion-order) enumeration.  The
theorems below quantify over arbitrary permutations, since Go map
iteration order is unspecified. -/
def QueryBuilder.Build (qb : QueryBuilder) : String :=
  buildWith qb qb.filters qb.orFilters

/-- Go `Build` in state-passing form: the body of `Build` only reads the
receiver fields (its only local is the `url.Values` it fills), so the
receiver state it hands back is the one it was given. -/
def QueryBuilder.BuildM (qb : QueryBuilder) : String × QueryBuilder :=
  (qb.Build, qb)

example :
    (NewQuery.Where "status" (GoVal.str "active")).Build = "status=active" := by decide

example :
    (((NewQuery.Where "status" (GoVal.str "active")).Limit 50).Offset 100).Build =
      "limit=50&offset=100&status=active" := by decide

example :
    (NewQuery.OrderByDesc "createdAt").Build = "order=desc&sort=createdAt" := by decide

example :
    ((((NewQuery.Or).Where "isPremium" (GoVal.bool true)).Where "isVerified"
        (GoVal.bool true)).Done).Build =
      "%5Bor%5DisPremium=true&%5Bor%5DisVerified=true" := by decide

example :
    (NewQuery.In "role" [GoVal.str "admin", GoVal.str "moderator"]).Build =
      "role_in=admin%2Cmoderator" := by decide

example : (NewQuery.Page 3 20).Build = "limit=20&offset=40" := by decide

/-- Looking up the key just written by a Go map assignment yields the
written value. -/
theorem lookup_mapInsert {β : Type} (m : List (String × β)) (k : String) (v : β) :
    (mapInsert m k v).lookup k = some v := by
  induction m with
  | nil => simp [mapInsert, List.lookup]
  | cons p rest ih =>
    by_cases h : (p.1 == k) = true
    · simp [mapInsert, h, List.lookup]
    · have h' : (k == p.1) = false := by
        have hne : p.1 ≠ k := by simpa using h
        rw [beq_eq_false_iff_ne]
        exact fun hk => hne hk.symm
      simp [mapInsert, h, List.lookup, h', ih]

/-- The pair just written by a Go map assignment is in the map. -/
theorem mem_mapInsert {β : Type} (m : List (String × β)) (k : String) (v : β) :
    (k, v) ∈ mapInsert m k v := by
  induction m with
  | nil => simp [mapInsert]
  | cons p rest ih =>
    by_cases h : (p.1 == k) = true
    · simp [mapInsert, h]
    · simp only [mapInsert, h, if_false, Bool.false_eq_true, ite_false, List.mem_cons]
      exact Or.inr ih

/-- Membership in the sorted key list is membership among the `Add`ed keys. -/
theorem mem_sortedKeys {ps : List (String × String)} {k : String} :
    k ∈ sortedKeys ps ↔ k ∈ ps.map Prod.fst := by
  unfold sortedKeys
  rw [(List.perm_insertionSort strLeRel _).mem_iff, List.mem_dedup]

/-- Every `Add`ed pair shows up among the values collected for its key. -/
theorem mem_collect_of_mem {ps : List (String × String)} {k : String} {v : String}
    (h : (k, v) ∈ ps) : v ∈ collect ps k :=
  List.mem_map_of_mem Prod.snd (List.mem_filter.mpr ⟨h, by simp⟩)

/-- Conversely, every collected value came from an `Add`ed pair. -/
theorem mem_of_mem_collect {ps : List (String × String)} {k : String} {v : String}
    (h : v ∈ collect ps k) : (k, v) ∈ ps := by
  unfold collect at h
  rcases List.mem_map.mp h with ⟨p, hp, rfl⟩
  rcases List.mem_filter.mp hp with ⟨hmem, hpred⟩
  have hk : p.1 = k := by simpa using hpred
  have : (k, p.2) = p := by rw [← hk]
  exact this ▸ hmem

/-- Every `Add`ed pair appears in the encoded entry list: `Encode`
drops nothing. -/
theorem mem_encodedEntries {ps : List (String × String)} {k : String} {v : String}
    (h : (k, v) ∈ ps) : (k, v) ∈ encodedEntries ps := by
  unfold encodedEntries
  refine List.mem_flatMap.mpr ⟨k, ?_, ?_⟩
  · exact mem_sortedKeys.mpr (List.mem_map_of_mem Prod.fst h)
  · exact List.mem_map_of_mem _ (mem_collect_of_mem h)

/-- The encoded output mentions a key iff some `Add` used it. -/
theorem mem_keys_encodedEntries (ps : List (String × String)) (k : String) :
    k ∈ (encodedEntries ps).map Prod.fst ↔ k ∈ ps.map Prod.fst := by
  constructor
  · intro h
    rcases List.mem_map.mp h with ⟨e, he, rfl⟩
    rcases List.mem_flatMap.mp (by exact he) with ⟨k', _, hin⟩
    rcases List.mem_map.mp hin with ⟨v, hv, rfl⟩
    exact List.mem_map.mpr ⟨(k', v), mem_of_mem_collect hv, rfl⟩
  · intro h
    rcases List.mem_map.mp h with ⟨q, hq, rfl⟩
    have : (q.1, q.2) ∈ ps := by simpa using hq
    exact List.mem_map.mpr ⟨(q.1, q.2), mem_encodedEntries this, rfl⟩

theorem collect_append (a b : List (String × String)) (k : String) :
    collect (a ++ b) k = collect a k ++ collect b k := by
  simp [collect, List.filter_append]

theorem collect_flatMap {α : Type} (L : List α) (f : α → List (String × String)) (k : String) :
    collect (L.flatMap f) k = (L.map (fun x => collect (f x) k)).flatten := by
  induction L with
  | nil => rfl
  | cons x xs ih => simp [List.flatMap_cons, collect_append, ih]

/-- A collected value list is nonempty iff the key was `Add`ed. -/
theorem collect_ne_nil_iff {ps : List (String × String)} {k : String} :
    collect ps k ≠ [] ↔ k ∈ ps.map Prod.fst := by
  constructor
  · intro h
    match hc : collect ps k with
    | [] => exact absurd hc h
    | v :: t =>
      have hv : v ∈ collect ps k := by rw [hc]; simp
      exact List.mem_map.mpr ⟨(k, v), mem_of_mem_collect hv, rfl⟩
  · intro h hnil
    rcases List.mem_map.mp h with ⟨q, hq, rfl⟩
    have hmem : (q.1, q.2) ∈ ps := by simpa using hq
    have : q.2 ∈ collect ps q.1 := mem_collect_of_mem hmem
    rw [hnil] at this
    exact absurd this (List.not_mem_nil _)

/-- Joining the images of a function that is nonempty on at most one
element (up to equal images) is invariant under permutation.  This is
why `Build` stays deterministic as long as no two different OR groups
feed the same parameter key. -/
theorem flatten_map_eq_of_perm {α β : Type} (g : α → List β) {l1 l2 : List α}
    (p : l1.Perm l2)
    (hP : ∀ x ∈ l1, ∀ y ∈ l1, g x ≠ [] → g y ≠ [] → g x = g y) :
    (l1.map g).flatten = (l2.map g).flatten := by
  revert hP
  induction p with
  | nil => intro _; rfl
  | cons x p ih =>
    intro hP
    simp only [List.map_cons, List.flatten_cons]
    rw [ih (fun a ha b hb => hP a (List.mem_cons_of_mem x ha) b (List.mem_cons_of_mem x hb))]
  | swap x y l =>
    intro hP
    simp only [List.map_cons, List.flatten_cons, ← List.append_assoc]
    congr 1
    by_cases hx : g x = []
    · simp [hx]
    · by_cases hy : g y = []
      · simp [hy]
      · rw [hP x (by simp) y (by simp) hx hy]
  | trans p1 _ ih1 ih2 =>
    intro hP
    rw [ih1 hP, ih2 (fun a ha b hb => hP a (p1.symm.subset ha) b (p1.symm.subset hb))]

/-- With unique keys (a Go map), at most one `Add`ed pair matches a key. -/
theorem filter_key_length_le_one {l : List (String × String)}
    (h : (l.map Prod.fst).Nodup) (k : String) :
    (l.filter (fun p => p.1 == k)).length ≤ 1 := by
  induction l with
  | nil => simp
  | cons p rest ih =>
    simp only [List.map_cons, List.nodup_cons] at h
    by_cases hp : (p.1 == k) = true
    · have hk : p.1 = k := by simpa using hp
      have hnil : rest.filter (fun q => q.1 == k) = [] := by
        apply List.filter_eq_nil_iff.mpr
        intro q hq hqk
        have hqk' : q.1 = k := by simpa using hqk
        exact h.1 (by rw [hk, ← hqk']; exact List.mem_map_of_mem Prod.fst hq)
      simp [List.filter_cons, hp, hnil]
    · simp only [List.filter_cons, hp, Bool.false_eq_true, ite_false]
      exact ih h.2

/-- Permutations of lists of length at most one are equalities. -/
theorem eq_of_perm_length_le_one {α : Type} {l1 l2 : List α} (p : l1.Perm l2)
    (h : l1.length ≤ 1) : l1 = l2 := by
  match l1, h with
  | [], _ => exact (List.Perm.eq_nil p.symm).symm
  | [a], _ => exact (List.perm_singleton.mp p.symm).symm
  | a :: b :: t, h => simp at h

/-- Over a Go map (unique keys) the per-key value list does not depend
on the iteration order. -/
theorem collect_eq_of_perm_nodup {l1 l2 : List (String × String)} (p : l1.Perm l2)
    (h : (l1.map Prod.fst).Nodup) (k : String) : collect l1 k = collect l2 k := by
  unfold collect
  rw [eq_of_perm_length_le_one (List.Perm.filter _ p) (filter_key_length_le_one h k)]

/-- Permuting the `Add` sequence permutes nothing in the sorted key
list: it is the sorted deduplication of the key multiset. -/
theorem sortedKeys_eq_of_perm {ps1 ps2 : List (String × String)} (p : ps1.Perm ps2) :
    sortedKeys ps1 = sortedKeys ps2 := by
  unfold sortedKeys
  refine List.eq_of_perm_of_sorted ?_ (List.sorted_insertionSort _ _)
    (List.sorted_insertionSort _ _)
  exact (List.perm_insertionSort _ _).trans
    (((p.map Prod.fst).dedup).trans (List.perm_insertionSort _ _).symm)

theorem perm_flatMap {α β : Type} (f : α → List β) {l1 l2 : List α} (p : l1.Perm l2) :
    (l1.flatMap f).Perm (l2.flatMap f) := by
  rw [List.flatMap_def, List.flatMap_def]
  exact (p.map f).flatten

/-- Different enumerations of the two maps produce permuted `Add`
sequences. -/
theorem buildAddList_perm {qb : QueryBuilder} {e1 e2 : List (String × String)}
    {o1 o2 : List (String × List String)} (he : e1.Perm e2) (ho : o1.Perm o2) :
    (buildAddList e1 o1 qb).Perm (buildAddList e2 o2 qb) := by
  unfold buildAddList
  exact ((he.append (perm_flatMap orGroupEntries ho)).append (List.Perm.refl _)).append
    (List.Perm.refl _)

/-- The disjointness proviso on OR groups: no parameter key is produced
by two distinct groups. -/
def orKeysDisjoint (qb : QueryBuilder) : Prop :=
  qb.orFilters.Pairwise (fun g1 g2 => ∀ k ∈ (orGroupEntries g1).map Prod.fst,
    k ∉ (orGroupEntries g2).map Prod.fst)

/-- Under unique filter keys and the OR-group disjointness proviso, the
per-key value lists of the full `Add` sequence are independent of both
map iteration orders. -/
theorem collect_buildAddList_eq {qb : QueryBuilder} {e1 e2 : List (String × String)}
    {o1 o2 : List (String × List String)}
    (hf : (qb.filters.map Prod.fst).Nodup)
    (he1 : e1.Perm qb.filters) (he2 : e2.Perm qb.filters)
    (ho1 : o1.Perm qb.orFilters) (ho2 : o2.Perm qb.orFilters)
    (hdisj : orKeysDisjoint qb) (k : String) :
    collect (buildAddList e1 o1 qb) k = collect (buildAddList e2 o2 qb) k := by
  unfold buildAddList
  simp only [collect_append]
  have hnod1 : (e1.map Prod.fst).Nodup := ((he1.map Prod.fst).nodup_iff).mpr hf
  have hnod2 : (e2.map Prod.fst).Nodup := ((he2.map Prod.fst).nodup_iff).mpr hf
  have hfe : collect e1 k = collect e2 k := by
    rw [collect_eq_of_perm_nodup he1 hnod1 k, ← collect_eq_of_perm_nodup he2 hnod2 k]
  have hsym : Symmetric (fun g1 g2 : String × List String =>
      ∀ k ∈ (orGroupEntries g1).map Prod.fst, k ∉ (orGroupEntries g2).map Prod.fst) :=
    fun _ _ h k2 hk2 hk1 => h k2 hk1 hk2
  have hor : collect (o1.flatMap orGroupEntries) k =
      collect (o2.flatMap orGroupEntries) k := by
    rw [collect_flatMap, collect_flatMap]
    apply flatten_map_eq_of_perm _ (ho1.trans ho2.symm)
    intro x hx y hy hgx hgy
    by_cases hxy : x = y
    · rw [hxy]
    · exfalso
      have hx' : x ∈ qb.orFilters := ho1.subset hx
      have hy' : y ∈ qb.orFilters := ho1.subset hy
      have hk_x : k ∈ (orGroupEntries x).map Prod.fst := collect_ne_nil_iff.mp hgx
      have hk_y : k ∈ (orGroupEntries y).map Prod.fst := collect_ne_nil_iff.mp hgy
      exact (List.Pairwise.forall hsym hdisj hx' hy' hxy) k hk_x hk_y
  rw [hfe, hor]

/-- Core determinism lemma: under the two map invariants and the
OR-group key disjointness proviso, the output of `Build` is independent of
both map iteration orders. -/
theorem buildWith_eq_of_perms {qb : QueryBuilder} {e1 e2 : List (String × String)}
    {o1 o2 : List (String × List String)}
    (hf : (qb.filters.map Prod.fst).Nodup)
    (he1 : e1.Perm qb.filters) (he2 : e2.Perm qb.filters)
    (ho1 : o1.Perm qb.orFilters) (ho2 : o2.Perm qb.orFilters)
    (hdisj : orKeysDisjoint qb) :
    buildWith qb e1 o1 = buildWith qb e2 o2 := by
  unfold buildWith encodeParams encodedEntries
  have hkeys : sortedKeys (buildAddList e1 o1 qb) = sortedKeys (buildAddList e2 o2 qb) :=
    sortedKeys_eq_of_perm (buildAddList_perm (he1.trans he2.symm) (ho1.trans ho2.symm))
  have hcol := collect_buildAddList_eq hf he1 he2 ho1 ho2 hdisj
  rw [hkeys]
  have hfun : ∀ x ∈ sortedKeys (buildAddList e2 o2 qb),
      (collect (buildAddList e1 o1 qb) x).map (fun v => (x, v)) =
      (collect (buildAddList e2 o2 qb) x).map (fun v => (x, v)) :=
    fun x _ => by rw [hcol x]
  rw [List.flatMap_congr hfun]

/-- Go `Build` emits the pair `(k, v)` under every iteration order of the
two maps:  `(k, v)` is among the key/value entries that
`url.Values.Encode` renders, in which the output of `Build` is exactly the
`&`-join of `escape(key)=escape(value)`. -/
def emits (qb : QueryBuilder) (k v : String) : Prop :=
  ∀ fEnum oEnum, fEnum.Perm qb.filters → oEnum.Perm qb.orFilters →
    (k, v) ∈ encodedEntries (buildAddList fEnum oEnum qb)

theorem emits_of_mem_filters {qb : QueryBuilder} {k v : String}
    (h : (k, v) ∈ qb.filters) : emits qb k v := by
  intro fEnum oEnum hfe _
  apply mem_encodedEntries
  unfold buildAddList
  exact List.mem_append_left _ (List.mem_append_left _
    (List.mem_append_left _ (hfe.mem_iff.mpr h)))

/-- JSON values, for the request bodies the client marshals. -/
inductive Jv where
  | str (s : String)
  | num (n : Int)
  | bool (b : Bool)
  | obj (fields : List (String × Jv))
  | arr (elems : List Jv)
  | null

/-- Go `AppUser` (types.go): id, email, roles, free-form data, timestamps. -/
structure AppUser where
  id : String
  email : String
  roles : List String
  data : List (String × GoVal)
  createdAt : String
  updatedAt : String
deriving DecidableEq

/-- Go `Document` (types.go). -/
structure Document where
  id : String
  collection : String
  data : List (String × GoVal)
  createdAt : String
  updatedAt : String
deriving DecidableEq

/-- Go `Event` (types.go): one decoded WebSocket frame. -/
structure Event where
  event : String
  data : Document
deriving DecidableEq

/-- Go `Client` (types.go): base URL, API key, bearer token, cached user,
and the pluggable `Storage`.  The storage is modelled as an in-memory
key/value map behind the presence flag `hasStorage` (`storage != nil`).
The HTTP transport is not part of the state; it enters as an oracle
argument of the request functions. -/
structure Client where
  baseURL : String
  apiKey : String
  token : String
  user : Option AppUser
  hasStorage : Bool
  storage : List (String × String)
deriving DecidableEq

def ContentTypeJSON : String := "application/json"
def HeaderAPIKey : String := "x-api-key"
def HeaderAuthorization : String := "Authorization"

/-- Go `SetToken` (client.go): store the token, then persist it when a
storage is configured; the storage error (never raised by the
key/value model) is returned. -/
def Client.SetToken (c : Client) (token : String) : Option String × Client :=
  let c' := { c with token := token }
  if c.hasStorage then
    (none, { c' with storage := mapInsert c'.storage "cocobase-token" token })
  else (none, c')

/-- Go `GetToken` (client.go). -/
def Client.GetToken (c : Client) : String := c.token

/-- Go `IsAuthenticated` (client.go): `c.token != ""`. -/
def Client.IsAuthenticated (c : Client) : Bool := c.token != ""

/-- Go `Logout` (auth.go): clear token and cached user, then delete the
persisted token when a storage is configured. -/
def Client.Logout (c : Client) : Option String × Client :=
  let c' := { c with token := "", user := none }
  if c.hasStorage then
    (none, { c' with storage := mapDelete c'.storage "cocobase-token" })
  else (none, c')

/-- One outgoing HTTP request as `Client.request` constructs it. -/
structure HttpRequest where
  method : String
  url : String
  headers : List (String × String)
  body : Option Jv

/-- The header/URL part of `Client.request` (client.go lines 74-110):
url is `baseURL + path`; the body is wrapped in `{"data": ...}` when
`useDataKey`; `Content-Type` is always set, `x-api-key` only for a
non-empty API key, `Authorization: Bearer <token>` only for a
non-empty token. -/
def Client.buildRequest (c : Client) (method path : String) (body : Option Jv)
    (useDataKey : Bool) : HttpRequest :=
  let url := c.baseURL ++ path
  let payload : Option Jv :=
    match body with
    | none => none
    | some b => some (if useDataKey then Jv.obj [("data", b)] else b)
  let h1 := mapInsert [] "Content-Type" ContentTypeJSON
  let h2 := if c.apiKey != "" then mapInsert h1 HeaderAPIKey c.apiKey else h1
  let h3 := if c.token != "" then
      mapInsert h2 HeaderAuthorization ("Bearer " ++ c.token)
    else h2
  { method := method, url := url, headers := h3, body := payload }

/-- Go `APIError` (errors.go). -/
structure APIError where
  statusCode : Nat
  method : String
  url : String
  body : String
  suggestion : String
deriving DecidableEq

/-- The apostrophe character; two strings in errors.go contain it and
it is spelled here by code point. -/
def apos : String := String.mk [Char.ofNat 39]

/-- Go `getErrorSuggestion` (errors.go): fixed strings for 401, 403, 404,
405 (method-dependent) and 429, a default otherwise. -/
def getErrorSuggestion (status : Nat) (method : String) : String :=
  if status == 401 then "Check if your API key is valid and properly set"
  else if status == 403 then
    ("You don" ++ apos ++ "t have permission to perform this action. Verify your access rights")
  else if status == 404 then
    "The requested resource was not found. Verify the path and ID are correct"
  else if status == 405 then
    "The " ++ method ++
      " method is not allowed for this endpoint. Check the API documentation for supported methods"
  else if status == 429 then
    ("You" ++ apos ++ "ve exceeded the rate limit. Please wait before making more requests")
  else "Check the API documentation and verify your request format"

/-- Go `APIError.Error()` (errors.go). -/
def APIError.errorString (e : APIError) : String :=
  "API request failed: " ++ e.method ++ " " ++ e.url ++ " (status: " ++
    toString e.statusCode ++ ")\nBody: " ++ e.body ++ "\nSuggestion: " ++ e.suggestion

/-- The status-handling tail of `Client.request` (client.go lines
117-130): a status of 400 or more becomes an `APIError` carrying the
method, full URL, response body and suggestion; anything below 400
passes the response through. -/
def handleResponse (method url : String) (status : Nat) (respBody : String) :
    Except APIError (Nat × String) :=
  if status ≥ 400 then
    Except.error
      { statusCode := status, method := method, url := url, body := respBody,
        suggestion := getErrorSuggestion status method }
  else Except.ok (status, respBody)

/-- Go `Client.request`, with the transport response `(status, body)`
supplied as an oracle (transport-level failures short-circuit before
this point and are not modelled). -/
def Client.request (c : Client) (method path : String) (body : Option Jv)
    (useDataKey : Bool) (resp : Nat × String) : Except APIError (Nat × String) :=
  let req := c.buildRequest method path body useDataKey
  handleResponse method req.url resp.1 resp.2

/-- Result of an auth call: the Go `(value, error)` pair, the client
state after the call, and the trace of HTTP requests it issued. -/
structure CallResult (α : Type) where
  result : Except String α
  client : Client
  requests : List HttpRequest

/-- Go `mergeData` (auth.go): copy `current`, then overlay `updates`. -/
def mergeData (current updates : List (String × GoVal)) : List (String × GoVal) :=
  updates.foldl (fun acc p => mapInsert acc p.1 p.2) current

/-- Go `GetCurrentUser` (auth.go lines 120-142).  `net` is the transport
oracle, `decodeUser` the JSON decoder for the response body, and
`encodeUser` the `json.Marshal` used to persist the profile.  When the
client is unauthenticated it fails up front: no request, no state
change. -/
def Client.GetCurrentUser (c : Client) (net : Nat × String)
    (decodeUser : String → Option AppUser) (encodeUser : AppUser → String) :
    CallResult AppUser :=
  if ¬ c.IsAuthenticated then
    { result := Except.error "user is not authenticated", client := c, requests := [] }
  else
    let req := c.buildRequest "GET" "/auth-collections/user" none true
    match c.request "GET" "/auth-collections/user" none true net with
    | Except.error e =>
      { result := Except.error e.errorString, client := c, requests := [req] }
    | Except.ok (_, respBody) =>
      match decodeUser respBody with
      | none =>
        { result := Except.error "failed to decode response", client := c,
          requests := [req] }
      | some user =>
        let c' := if c.hasStorage then
            { c with storage := mapInsert c.storage "cocobase-user" (encodeUser user) }
          else c
        { result := Except.ok user, client := c', requests := [req] }

/-- Go `UpdateUser` (auth.go lines 144-192).  Same oracles as
`GetCurrentUser`; the body merges the cached user data with the
update before the PATCH.  When the client is unauthenticated it fails
up front: no request, no state change. -/
def Client.UpdateUser (c : Client) (data : Option (List (String × GoVal)))
    (email password : Option String) (net : Nat × String)
    (decodeUser : String → Option AppUser) (encodeUser : AppUser → String) :
    CallResult AppUser :=
  if ¬ c.IsAuthenticated then
    { result := Except.error "user is not authenticated", client := c, requests := [] }
  else
    let dataField : List (String × Jv) :=
      match data with
      | none => []
      | some d =>
        let currentData := match c.user with
          | none => []
          | some u => u.data
        [("data", Jv.obj ((mergeData currentData d).map (fun p =>
          (p.1, match p.2 with
            | GoVal.str s => Jv.str s
            | GoVal.int n => Jv.num n
            | GoVal.bool b => Jv.bool b))))]
    let emailField : List (String × Jv) :=
      match email with
      | none => []
      | some e => [("email", Jv.str e)]
    let passwordField : List (String × Jv) :=
      match password with
      | none => []
      | some pw => [("password", Jv.str pw)]
    let body := Jv.obj (dataField ++ emailField ++ passwordField)
    let req := c.buildRequest "PATCH" "/auth-collections/user" (some body) false
    match c.request "PATCH" "/auth-collections/user" (some body) false net with
    | Except.error e =>
      { result := Except.error e.errorString, client := c, requests := [req] }
    | Except.ok (_, respBody) =>
      match decodeUser respBody with
      | none =>
        { result := Except.error "failed to decode response", client := c,
          requests := [req] }
      | some user =>
        let c1 := { c with user := some user }
        let c2 := if c1.hasStorage then
            { c1 with storage := mapInsert c1.storage "cocobase-user" (encodeUser user) }
          else c1
        { result := Except.ok user, client := c2, requests := [req] }

/-- Go `Connection` (types.go / realtime.go): the `closed` flag plus a
ghost counter of how many times the underlying WebSocket `Close()` was
invoked (the real struct holds the socket itself). -/
structure Connection where
  name : String
  closed : Bool
  sockCloseCount : Nat
deriving DecidableEq

/-- The `Connection` literal in `WatchCollection` (realtime.go lines
26-34): default name `watch-<collection>`, `closed: false`. -/
def newConnection (collection name : String) : Connection :=
  { name := if name == "" then "watch-" ++ collection else name,
    closed := false, sockCloseCount := 0 }

/-- Go `Connection.Close` (realtime.go lines 59-69): a second close is a
no-op returning nil; the first close sets the flag and closes the
underlying socket, whose error (`sockErr` oracle) is returned. -/
def Connection.Close (conn : Connection) (sockErr : Option String) :
    Option String × Connection :=
  if conn.closed then (none, conn)
  else (sockErr, { conn with closed := true, sockCloseCount := conn.sockCloseCount + 1 })

/-- Go `Connection.IsClosed` (realtime.go lines 71-75). -/
def Connection.IsClosed (conn : Connection) : Bool := conn.closed

/-- What one `conn.ReadJSON` in the watch goroutine produced: a decoded
frame, or an error (whose unexpected-close flag only controls logging). -/
inductive ReadResult where
  | ok (e : Event)
  | err (isUnexpected : Bool)
deriving DecidableEq

/-- The `for { ReadJSON; callback }` loop of the goroutine in
`WatchCollection` (realtime.go lines 43-53) over a prefix of the read
stream: returns the callback invocations in order and whether the loop
returned (it returns exactly on the first read error; an exhausted
prefix means the loop is still blocked in `ReadJSON`). -/
def runReadLoop : List ReadResult → List Event × Bool
  | [] => ([], false)
  | ReadResult.ok e :: rest =>
    let r := runReadLoop rest
    (e :: r.1, r.2)
  | ReadResult.err _ :: _ => ([], true)

/-- The goroutine including its `defer` (realtime.go lines 36-41): when
the loop returns, the deferred block sets `closed`. -/
def watchRun (conn : Connection) (reads : List ReadResult) : List Event × Connection :=
  let r := runReadLoop reads
  (r.1, if r.2 then { conn with closed := true } else conn)

/-- Specification-side view of the stream: the frames decoded before
the first read error. -/
def okPrefix : List ReadResult → List Event
  | [] => []
  | ReadResult.ok e :: rest => e :: okPrefix rest
  | ReadResult.err _ :: _ => []

/-- Whether the read stream prefix contains an error. -/
def hasErr : List ReadResult → Bool
  | [] => false
  | ReadResult.ok _ :: rest => hasErr rest
  | ReadResult.err _ :: _ => true

/-- The operations that touch a `Connection` after creation: a `Close`
call (with the socket-close outcome) or the deferred goroutine
flag-set on loop exit.  `IsClosed` is read-only. -/
inductive ConnOp where
  | close (sockErr : Option String)
  | loopExit

def connStep (conn : Connection) : ConnOp → Connection
  | ConnOp.close e => (conn.Close e).2
  | ConnOp.loopExit => { conn with closed := true }

def connRun (conn : Connection) (ops : List ConnOp) : Connection :=
  ops.foldl connStep conn

/-- Go `limit` is among the pagination keys exactly when the stored limit
is positive. -/
theorem mem_limit_paginationParams (qb : QueryBuilder) :
    "limit" ∈ (paginationParams qb).map Prod.fst ↔ 0 < qb.limit := by
  unfold paginationParams
  by_cases hl : qb.limit > 0 <;> by_cases ho : qb.offset > 0 <;> simp [hl, ho]

/-- Go `offset` is among the pagination keys exactly when the stored
offset is positive. -/
theorem mem_offset_paginationParams (qb : QueryBuilder) :
    "offset" ∈ (paginationParams qb).map Prod.fst ↔ 0 < qb.offset := by
  unfold paginationParams
  by_cases hl : qb.limit > 0 <;> by_cases ho : qb.offset > 0 <;> simp [hl, ho]

/-- The sorting parameters only ever use the keys `sort` and `order`. -/
theorem not_mem_sortParams (qb : QueryBuilder) (k : String) (h1 : k ≠ "sort")
    (h2 : k ≠ "order") : k ∉ (sortParams qb).map Prod.fst := by
  unfold sortParams
  by_cases hs : (qb.sort != "") = true <;> by_cases ho : (qb.order != "") = true <;>
    simp [hs, ho, h1, h2]

/- ======================  claim theorems  ====================== -/

/-- C1.  Every predicate method stores its value under exactly the
operator-suffixed key the operator prescribes — `Where`/`Equals` under
`f`, `NotEquals` under `f_ne`, `GreaterThan` under `f_gt`,
`GreaterThanOrEqual` under `f_gte`, `LessThan` under `f_lt`,
`LessThanOrEqual` under `f_lte`, `Contains` under `f_contains`,
`StartsWith` under `f_startswith`, `EndsWith` under `f_endswith`, `In`
under `f_in` (values comma-joined), `NotIn` under `f_notin`, `IsNull`
under `f_isnull` with `"true"`, `IsNotNull` under `f_isnull` with
`"false"` — and `Build()` emits that key=value pair (under every map
iteration order, the pair is among the entries `url.Values.Encode`
renders, of which the output of `Build` is the `&`-join). -/
theorem C1_predicate_methods_serialize (qb : QueryBuilder) (f sub pre suf : String)
    (v : GoVal) (vs : List GoVal) :
    ((qb.Where f v).filters.lookup f = some (goFmt v) ∧
      emits (qb.Where f v) f (goFmt v)) ∧
    ((qb.Equals f v).filters.lookup f = some (goFmt v) ∧
      emits (qb.Equals f v) f (goFmt v)) ∧
    ((qb.NotEquals f v).filters.lookup (f ++ "_ne") = some (goFmt v) ∧
      emits (qb.NotEquals f v) (f ++ "_ne") (goFmt v)) ∧
    ((qb.GreaterThan f v).filters.lookup (f ++ "_gt") = some (goFmt v) ∧
      emits (qb.GreaterThan f v) (f ++ "_gt") (goFmt v)) ∧
    ((qb.GreaterThanOrEqual f v).filters.lookup (f ++ "_gte") = some (goFmt v) ∧
      emits (qb.GreaterThanOrEqual f v) (f ++ "_gte") (goFmt v)) ∧
    ((qb.LessThan f v).filters.lookup (f ++ "_lt") = some (goFmt v) ∧
      emits (qb.LessThan f v) (f ++ "_lt") (goFmt v)) ∧
    ((qb.LessThanOrEqual f v).filters.lookup (f ++ "_lte") = some (goFmt v) ∧
      emits (qb.LessThanOrEqual f v) (f ++ "_lte") (goFmt v)) ∧
    ((qb.Contains f sub).filters.lookup (f ++ "_contains") = some sub ∧
      emits (qb.Contains f sub) (f ++ "_contains") sub) ∧
    ((qb.StartsWith f pre).filters.lookup (f ++ "_startswith") = some pre ∧
      emits (qb.StartsWith f pre) (f ++ "_startswith") pre) ∧
    ((qb.EndsWith f suf).filters.lookup (f ++ "_endswith") = some suf ∧
      emits (qb.EndsWith f suf) (f ++ "_endswith") suf) ∧
    ((qb.In f vs).filters.lookup (f ++ "_in") =
        some (String.intercalate "," (vs.map goFmt)) ∧
      emits (qb.In f vs) (f ++ "_in") (String.intercalate "," (vs.map goFmt))) ∧
    ((qb.NotIn f vs).filters.lookup (f ++ "_notin") =
        some (String.intercalate "," (vs.map goFmt)) ∧
      emits (qb.NotIn f vs) (f ++ "_notin") (String.intercalate "," (vs.map goFmt))) ∧
    ((qb.IsNull f).filters.lookup (f ++ "_isnull") = some "true" ∧
      emits (qb.IsNull f) (f ++ "_isnull") "true") ∧
    ((qb.IsNotNull f).filters.lookup (f ++ "_isnull") = some "false" ∧
      emits (qb.IsNotNull f) (f ++ "_isnull") "false") :=
  ⟨⟨lookup_mapInsert _ _ _, emits_of_mem_filters (mem_mapInsert _ _ _)⟩,
   ⟨lookup_mapInsert _ _ _, emits_of_mem_filters (mem_mapInsert _ _ _)⟩,
   ⟨lookup_mapInsert _ _ _, emits_of_mem_filters (mem_mapInsert _ _ _)⟩,
   ⟨lookup_mapInsert _ _ _, emits_of_mem_filters (mem_mapInsert _ _ _)⟩,
   ⟨lookup_mapInsert _ _ _, emits_of_mem_filters (mem_mapInsert _ _ _)⟩,
   ⟨lookup_mapInsert _ _ _, emits_of_mem_filters (mem_mapInsert _ _ _)⟩,
   ⟨lookup_mapInsert _ _ _, emits_of_mem_filters (mem_mapInsert _ _ _)⟩,
   ⟨lookup_mapInsert _ _ _, emits_of_mem_filters (mem_mapInsert _ _ _)⟩,
   ⟨lookup_mapInsert _ _ _, emits_of_mem_filters (mem_mapInsert _ _ _)⟩,
   ⟨lookup_mapInsert _ _ _, emits_of_mem_filters (mem_mapInsert _ _ _)⟩,
   ⟨lookup_mapInsert _ _ _, emits_of_mem_filters (mem_mapInsert _ _ _)⟩,
   ⟨lookup_mapInsert _ _ _, emits_of_mem_filters (mem_mapInsert _ _ _)⟩,
   ⟨lookup_mapInsert _ _ _, emits_of_mem_filters (mem_mapInsert _ _ _)⟩,
   ⟨lookup_mapInsert _ _ _, emits_of_mem_filters (mem_mapInsert _ _ _)⟩⟩

/-- Witness for C1 at a concrete input: `Where("status", "active")` on a
fresh builder emits the pair `("status", "active")` under the canonical
enumeration. -/
theorem C1_predicate_methods_serialize_witness :
    ("status", "active") ∈ encodedEntries (buildAddList
      (NewQuery.Where "status" (GoVal.str "active")).filters
      (NewQuery.Where "status" (GoVal.str "active")).orFilters
      (NewQuery.Where "status" (GoVal.str "active"))) :=
  (C1_predicate_methods_serialize NewQuery "status" "" "" "" (GoVal.str "active") []).1.2
    (NewQuery.Where "status" (GoVal.str "active")).filters
    (NewQuery.Where "status" (GoVal.str "active")).orFilters
    (List.Perm.refl _) (List.Perm.refl _)

/-- A builder, reachable through the public API, in which two distinct
OR groups (`"a"` and `"a]b"`) serialize conditions under the same
parameter key `[or:a]b]k`. -/
def qbC2 : QueryBuilder :=
  ((((NewQuery.OrGroup "a").Where "b]k" (GoVal.int 1)).Done.OrGroup "a]b").Where "k"
    (GoVal.int 2)).Done

/-- C2 counterexample: on `qbC2` two legitimate iteration orders of the
`orFilters` map make `Build()` return different strings, so `Build` is
not deterministic for every builder state. -/
theorem C2_counterexample :
    List.Perm [("a]b", ["[or:a]b]k=2"]), ("a", ["[or:a]b]k=1"])] qbC2.orFilters ∧
    List.Perm qbC2.orFilters qbC2.orFilters ∧
    buildWith qbC2 qbC2.filters [("a]b", ["[or:a]b]k=2"]), ("a", ["[or:a]b]k=1"])] ≠
      buildWith qbC2 qbC2.filters qbC2.orFilters := by
  refine ⟨by decide, List.Perm.refl _, by decide⟩

/-- C2 amended: for every builder state whose two maps have unique keys
(as Go maps do) and in which no two distinct OR groups serialize a
condition under the same parameter key, `Build()` returns the same
string under every pair of iteration orders of `filters` and
`orFilters`: `url.Values.Encode` sorts the keys, and under each single
key the values are then appended in a fixed order. -/
theorem C2_build_deterministic (qb : QueryBuilder) (e1 e2 : List (String × String))
    (o1 o2 : List (String × List String))
    (hf : (qb.filters.map Prod.fst).Nodup)
    (he1 : e1.Perm qb.filters) (he2 : e2.Perm qb.filters)
    (ho1 : o1.Perm qb.orFilters) (ho2 : o2.Perm qb.orFilters)
    (hdisj : orKeysDisjoint qb) :
    buildWith qb e1 o1 = buildWith qb e2 o2 :=
  buildWith_eq_of_perms hf he1 he2 ho1 ho2 hdisj

/-- A small builder with two AND filters and one OR condition. -/
def qbC2w : QueryBuilder :=
  ((((NewQuery.Where "b" (GoVal.int 1)).Where "a" (GoVal.int 2)).Or).Where "c"
    (GoVal.int 3)).Done

/-- Witness for C2 amended at a concrete input: the two enumeration
orders of `qbC2w.filters` yield the same `Build` output. -/
theorem C2_build_deterministic_witness :
    ((qbC2w.filters.map Prod.fst).Nodup ∧
      List.Perm [("a", "2"), ("b", "1")] qbC2w.filters ∧ orKeysDisjoint qbC2w) ∧
    buildWith qbC2w [("a", "2"), ("b", "1")] qbC2w.orFilters =
      buildWith qbC2w qbC2w.filters qbC2w.orFilters :=
  ⟨⟨by decide, by decide, by
      show List.Pairwise _ [("", ["[or]c=3"])]
      exact List.Pairwise.cons (by simp) List.Pairwise.nil⟩,
   C2_build_deterministic qbC2w [("a", "2"), ("b", "1")] qbC2w.filters qbC2w.orFilters
     qbC2w.orFilters (by decide) (by decide) (List.Perm.refl _) (List.Perm.refl _)
     (List.Perm.refl _)
     (by show List.Pairwise _ [("", ["[or]c=3"])]
         exact List.Pairwise.cons (by simp) List.Pairwise.nil)⟩

/-- C3.  `Build` is a pure observer: in state-passing form it hands the
receiver back with every field — `filters`, `orFilters`, `limit`,
`offset`, `sort`, `order` — unchanged, so a later `Build` returns the
same string and a later filter method acts on exactly the
pre-`Build` state. -/
theorem C3_build_is_pure_observer (qb : QueryBuilder) :
    qb.BuildM.2.filters = qb.filters ∧ qb.BuildM.2.orFilters = qb.orFilters ∧
    qb.BuildM.2.limit = qb.limit ∧ qb.BuildM.2.offset = qb.offset ∧
    qb.BuildM.2.sort = qb.sort ∧ qb.BuildM.2.order = qb.order ∧
    qb.BuildM.2 = qb ∧ qb.BuildM.2.BuildM.1 = qb.BuildM.1 ∧
    (∀ f v, qb.BuildM.2.Where f v = qb.Where f v) :=
  ⟨rfl, rfl, rfl, rfl, rfl, rfl, rfl, rfl, fun _ _ => rfl⟩

/-- A builder in which a user filter shadows the `limit` parameter key. -/
def qbC4 : QueryBuilder := NewQuery.Where "limit" (GoVal.str "9")

/-- C4 counterexample: on `qbC4` the stored limit is 0 yet `Build()`
emits a `limit` parameter (the filter `Where("limit", "9")`), so
"emits `limit` iff stored limit > 0" fails as stated. -/
theorem C4_counterexample :
    ¬ (("limit" ∈ (encodedEntries (buildAddList qbC4.filters qbC4.orFilters qbC4)).map
        Prod.fst) ↔ 0 < qbC4.limit) := by decide

/-- C4 amended: provided no AND filter and no OR condition itself
serializes under the key `limit` (resp. `offset`), `Build()` emits a
`limit` parameter iff the stored limit is strictly positive and an
`offset` parameter iff the stored offset is strictly positive; and
`Page(page, perPage)` sets `limit` to `perPage` and `offset` to
`(page-1)*perPage` with any page below 1 first replaced by 1, so
`Page(0, n)` and `Page(1, n)` set offset 0. -/
theorem C4_pagination_serialization (qb : QueryBuilder) (fEnum : List (String × String))
    (oEnum : List (String × List String)) (page perPage : Int)
    (hl : "limit" ∉ fEnum.map Prod.fst)
    (hlo : "limit" ∉ (oEnum.flatMap orGroupEntries).map Prod.fst)
    (hof : "offset" ∉ fEnum.map Prod.fst)
    (hoo : "offset" ∉ (oEnum.flatMap orGroupEntries).map Prod.fst) :
    ("limit" ∈ (encodedEntries (buildAddList fEnum oEnum qb)).map Prod.fst ↔
      0 < qb.limit) ∧
    ("offset" ∈ (encodedEntries (buildAddList fEnum oEnum qb)).map Prod.fst ↔
      0 < qb.offset) ∧
    (qb.Page page perPage).limit = perPage ∧
    (qb.Page page perPage).offset = (max page 1 - 1) * perPage ∧
    (qb.Page 0 perPage).offset = 0 ∧
    (qb.Page 1 perPage).offset = 0 := by
  refine ⟨?_, ?_, ?_, ?_, ?_, ?_⟩
  · rw [mem_keys_encodedEntries]
    unfold buildAddList
    simp only [List.map_append, List.mem_append]
    constructor
    · rintro (((h | h) | h) | h)
      · exact absurd h hl
      · exact absurd h hlo
      · exact (mem_limit_paginationParams qb).mp h
      · exact absurd h (not_mem_sortParams qb "limit" (by decide) (by decide))
    · intro h
      exact Or.inl (Or.inr ((mem_limit_paginationParams qb).mpr h))
  · rw [mem_keys_encodedEntries]
    unfold buildAddList
    simp only [List.map_append, List.mem_append]
    constructor
    · rintro (((h | h) | h) | h)
      · exact absurd h hof
      · exact absurd h hoo
      · exact (mem_offset_paginationParams qb).mp h
      · exact absurd h (not_mem_sortParams qb "offset" (by decide) (by decide))
    · intro h
      exact Or.inl (Or.inr ((mem_offset_paginationParams qb).mpr h))
  · unfold QueryBuilder.Page
    by_cases h : page < 1 <;> simp [h]
  · unfold QueryBuilder.Page
    by_cases h : page < 1
    · simp only [h, if_true]
      rw [max_eq_right (le_of_lt h)]
    · simp only [h, if_false]
      rw [max_eq_left (by omega)]
  · simp [QueryBuilder.Page]
  · simp [QueryBuilder.Page]

/-- Witness for C4 amended at a concrete input: `Limit(50).Offset(100)`
on a fresh builder, empty enumerations, `Page(3, 20)`. -/
theorem C4_pagination_serialization_witness :
    ("limit" ∈ (encodedEntries (buildAddList [] [] ((NewQuery.Limit 50).Offset 100))).map
      Prod.fst ↔ 0 < ((NewQuery.Limit 50).Offset 100).limit) ∧
    ((((NewQuery.Limit 50).Offset 100).Page 3 20).offset = (max 3 1 - 1) * 20) :=
  ⟨(C4_pagination_serialization ((NewQuery.Limit 50).Offset 100) [] [] 3 20
      (by decide) (by decide) (by decide) (by decide)).1,
   (C4_pagination_serialization ((NewQuery.Limit 50).Offset 100) [] [] 3 20
      (by decide) (by decide) (by decide) (by decide)).2.2.2.1⟩

/-- C5.  The client authentication state is exactly token
present/absent: `IsAuthenticated()` is true iff `GetToken()` is
non-empty; after `SetToken(t)`, `GetToken()` is `t`; after `Logout()`,
`GetToken()` is empty, the cached user is nil, and `IsAuthenticated()`
is false. -/
theorem C5_token_auth_state (c : Client) (t : String) :
    (c.IsAuthenticated = true ↔ c.GetToken ≠ "") ∧
    (c.SetToken t).2.GetToken = t ∧
    c.Logout.2.GetToken = "" ∧
    c.Logout.2.user = none ∧
    c.Logout.2.IsAuthenticated = false := by
  refine ⟨?_, ?_, ?_, ?_, ?_⟩
  · simp [Client.IsAuthenticated, Client.GetToken]
  · unfold Client.SetToken Client.GetToken
    by_cases h : c.hasStorage = true <;> simp [h]
  · unfold Client.Logout Client.GetToken
    by_cases h : c.hasStorage = true <;> simp [h]
  · unfold Client.Logout
    by_cases h : c.hasStorage = true <;> simp [h]
  · unfold Client.Logout Client.IsAuthenticated
    by_cases h : c.hasStorage = true <;> simp [h]

/-- C6.  Request signing: every request built by `Client.request`
targets `baseURL + path`, always carries
`Content-Type: application/json`, carries `x-api-key` exactly when the
API key is non-empty (with the key as value), and carries
`Authorization: Bearer <token>` exactly when the stored token is
non-empty. -/
theorem C6_request_signing (c : Client) (method path : String) (body : Option Jv)
    (useDataKey : Bool) :
    (c.buildRequest method path body useDataKey).url = c.baseURL ++ path ∧
    (c.buildRequest method path body useDataKey).headers.lookup "Content-Type" =
      some ContentTypeJSON ∧
    (c.buildRequest method path body useDataKey).headers.lookup HeaderAPIKey =
      (if c.apiKey = "" then none else some c.apiKey) ∧
    (c.buildRequest method path body useDataKey).headers.lookup HeaderAuthorization =
      (if c.token = "" then none else some ("Bearer " ++ c.token)) := by
  unfold Client.buildRequest
  by_cases ha : c.apiKey = "" <;> by_cases ht : c.token = "" <;>
    simp [ha, ht, mapInsert, List.lookup, ContentTypeJSON, HeaderAPIKey,
      HeaderAuthorization]

/-- C7.  The watch goroutine invokes the callback exactly once per
successfully decoded frame, in read order (`okPrefix`); the loop
returns exactly when a read errors; on return the deferred block sets
`closed`, and once `closed` is true no later `Close`/loop-exit
operation ever makes `IsClosed()` false again. -/
theorem C7_watch_read_loop (conn : Connection) (reads : List ReadResult)
    (ops : List ConnOp) :
    (watchRun conn reads).1 = okPrefix reads ∧
    (runReadLoop reads).2 = hasErr reads ∧
    (hasErr reads = true → (watchRun conn reads).2.IsClosed = true) ∧
    (conn.closed = true → (connRun conn ops).IsClosed = true) := by
  have hsnd : (runReadLoop reads).2 = hasErr reads := by
    induction reads with
    | nil => rfl
    | cons r rest ih =>
      cases r with
      | ok e => simpa [runReadLoop, hasErr] using ih
      | err b => rfl
  refine ⟨?_, hsnd, ?_, ?_⟩
  · show (runReadLoop reads).1 = okPrefix reads
    clear hsnd
    induction reads with
    | nil => rfl
    | cons r rest ih =>
      cases r with
      | ok e => simpa [runReadLoop, okPrefix] using ih
      | err b => rfl
  · intro h
    unfold watchRun Connection.IsClosed
    simp [hsnd, h]
  · intro h
    induction ops generalizing conn with
    | nil => exact h
    | cons op rest ih =>
      show (connRun (connStep conn op) rest).IsClosed = true
      apply ih
      cases op with
      | close e => simp [connStep, Connection.Close, h]
      | loopExit => rfl

/-- Witness for C7 at concrete inputs: a stream with one frame and then
a read error yields exactly that frame, and the connection is closed
afterwards and stays closed across a later `Close`. -/
theorem C7_watch_read_loop_witness :
    (hasErr [ReadResult.err false] = true →
      (watchRun (newConnection "posts" "") [ReadResult.err false]).2.IsClosed = true) ∧
    (watchRun (newConnection "posts" "") [ReadResult.err false]).2.IsClosed = true ∧
    (connRun { name := "w", closed := true, sockCloseCount := 1 }
      [ConnOp.close none]).IsClosed = true :=
  ⟨(C7_watch_read_loop (newConnection "posts" "") [ReadResult.err false] []).2.2.1,
   (C7_watch_read_loop (newConnection "posts" "") [ReadResult.err false] []).2.2.1 rfl,
   (C7_watch_read_loop { name := "w", closed := true, sockCloseCount := 1 } []
      [ConnOp.close none]).2.2.2 rfl⟩

/-- C8.  `Client.request` maps every response status of 400 or more to
a nil response with an `APIError` carrying the status, the method, the
full URL and the body, with the suggestion a function of status and
method only (fixed strings for 401/403/404/405/429, a default
otherwise); every status below 400 passes the response through with a
nil error. -/
theorem C8_error_mapping (c : Client) (method path : String) (body : Option Jv)
    (useDataKey : Bool) (status : Nat) (respBody : String) :
    (400 ≤ status →
      c.request method path body useDataKey (status, respBody) =
        Except.error
          { statusCode := status, method := method, url := c.baseURL ++ path,
            body := respBody, suggestion := getErrorSuggestion status method }) ∧
    (status < 400 →
      c.request method path body useDataKey (status, respBody) =
        Except.ok (status, respBody)) ∧
    getErrorSuggestion 401 method = "Check if your API key is valid and properly set" ∧
    getErrorSuggestion 403 method =
      ("You don" ++ apos ++ "t have permission to perform this action. Verify your access rights") ∧
    getErrorSuggestion 404 method =
      "The requested resource was not found. Verify the path and ID are correct" ∧
    getErrorSuggestion 405 method =
      "The " ++ method ++
        " method is not allowed for this endpoint. Check the API documentation for supported methods" ∧
    getErrorSuggestion 429 method =
      ("You" ++ apos ++ "ve exceeded the rate limit. Please wait before making more requests") ∧
    (status ≠ 401 → status ≠ 403 → status ≠ 404 → status ≠ 405 → status ≠ 429 →
      getErrorSuggestion status method =
        "Check the API documentation and verify your request format") := by
  refine ⟨?_, ?_, rfl, rfl, rfl, rfl, rfl, ?_⟩
  · intro h
    simp [Client.request, Client.buildRequest, handleResponse, h]
  · intro h
    have h' : ¬ 400 ≤ status := by omega
    simp [Client.request, Client.buildRequest, handleResponse, h']
  · intro h1 h2 h3 h4 h5
    simp [getErrorSuggestion, h1, h2, h3, h4, h5]

/-- A concrete unauthenticated client against the default base URL. -/
def clientW : Client :=
  { baseURL := "https://api.cocobase.com", apiKey := "key", token := "",
    user := none, hasStorage := false, storage := [] }

/-- Witness for C8 at concrete inputs: a 404 yields the `APIError` with
all four fields and the 404 suggestion; a 200 passes through. -/
theorem C8_error_mapping_witness :
    clientW.request "GET" "/x" none true (404, "nf") =
      Except.error
        { statusCode := 404, method := "GET", url := "https://api.cocobase.com/x",
          body := "nf", suggestion := getErrorSuggestion 404 "GET" } ∧
    clientW.request "GET" "/x" none true (200, "ok") = Except.ok (200, "ok") :=
  ⟨(C8_error_mapping clientW "GET" "/x" none true 404 "nf").1 (by decide),
   (C8_error_mapping clientW "GET" "/x" none true 200 "ok").2.1 (by decide)⟩

/-- C9.  Whenever `IsAuthenticated()` is false, `GetCurrentUser` and
`UpdateUser` return a nil user with the error
"user is not authenticated", issue no HTTP request, and leave token,
cached user and storage unchanged. -/
theorem C9_unauthenticated_guard (c : Client) (data : Option (List (String × GoVal)))
    (email password : Option String) (net : Nat × String)
    (decodeUser : String → Option AppUser) (encodeUser : AppUser → String)
    (h : c.IsAuthenticated = false) :
    c.GetCurrentUser net decodeUser encodeUser =
      { result := Except.error "user is not authenticated", client := c, requests := [] } ∧
    c.UpdateUser data email password net decodeUser encodeUser =
      { result := Except.error "user is not authenticated", client := c, requests := [] } ∧
    (c.GetCurrentUser net decodeUser encodeUser).client.token = c.token ∧
    (c.GetCurrentUser net decodeUser encodeUser).client.user = c.user ∧
    (c.GetCurrentUser net decodeUser encodeUser).client.storage = c.storage ∧
    (c.UpdateUser data email password net decodeUser encodeUser).client.token = c.token ∧
    (c.UpdateUser data email password net decodeUser encodeUser).client.user = c.user ∧
    (c.UpdateUser data email password net decodeUser encodeUser).client.storage = c.storage
    := by
  have hg : c.GetCurrentUser net decodeUser encodeUser =
      { result := Except.error "user is not authenticated", client := c, requests := [] } := by
    unfold Client.GetCurrentUser
    simp [h]
  have hu : c.UpdateUser data email password net decodeUser encodeUser =
      { result := Except.error "user is not authenticated", client := c, requests := [] } := by
    unfold Client.UpdateUser
    simp [h]
  exact ⟨hg, hu, by rw [hg], by rw [hg], by rw [hg], by rw [hu], by rw [hu], by rw [hu]⟩

/-- Witness for C9 at a concrete input: the unauthenticated `clientW`
is rejected by `GetCurrentUser` with no request issued. -/
theorem C9_unauthenticated_guard_witness :
    clientW.GetCurrentUser (200, "") (fun _ => none) (fun _ => "") =
      { result := Except.error "user is not authenticated", client := clientW,
        requests := [] } :=
  (C9_unauthenticated_guard clientW none none none (200, "") (fun _ => none)
    (fun _ => "") rfl).1

/-- With `closed = false`, one `Close` increments the socket-close
count; the lifetime invariant is that this happens at most once. -/
theorem connStep_inv {conn : Connection}
    (h1 : conn.closed = false → conn.sockCloseCount = 0)
    (h2 : conn.sockCloseCount ≤ 1) (op : ConnOp) :
    ((connStep conn op).closed = false → (connStep conn op).sockCloseCount = 0) ∧
    (connStep conn op).sockCloseCount ≤ 1 := by
  cases op with
  | close e =>
    by_cases h : conn.closed = true
    · simp [connStep, Connection.Close, h, h1, h2]
    · have hc0 : conn.sockCloseCount = 0 := h1 (by simpa using h)
      simp [connStep, Connection.Close, h, hc0]
  | loopExit => exact ⟨fun hc => by simp [connStep] at hc, by simpa [connStep] using h2⟩

theorem connRun_inv {conn : Connection}
    (h1 : conn.closed = false → conn.sockCloseCount = 0)
    (h2 : conn.sockCloseCount ≤ 1) (ops : List ConnOp) :
    (connRun conn ops).sockCloseCount ≤ 1 := by
  induction ops generalizing conn with
  | nil => exact h2
  | cons op rest ih =>
    show (connRun (connStep conn op) rest).sockCloseCount ≤ 1
    exact ih (connStep_inv h1 h2 op).1 (connStep_inv h1 h2 op).2

/-- C10.  `Connection.Close` is idempotent: on an already-closed
connection it returns nil and changes nothing; closing twice leaves
the same state as closing once; and over any lifetime of operations
starting from the `Connection` that `WatchCollection` creates, the
underlying WebSocket is closed at most once. -/
theorem C10_close_idempotent (conn : Connection) (e1 e2 : Option String)
    (coll nm : String) (ops : List ConnOp) (h : conn.closed = true) :
    conn.Close e1 = (none, conn) ∧
    ((conn.Close e1).2.Close e2).2 = (conn.Close e1).2 ∧
    (connRun (newConnection coll nm) ops).sockCloseCount ≤ 1 := by
  refine ⟨by simp [Connection.Close, h], ?_, ?_⟩
  · by_cases hc : conn.closed = true
    · simp [Connection.Close, hc]
    · simp [Connection.Close, hc]
  · exact connRun_inv (fun _ => rfl) (Nat.zero_le 1) ops

/-- Witness for C10 at a concrete input: a closed connection is
unchanged by `Close`, and two `Close` operations from a fresh
connection close the socket exactly once. -/
theorem C10_close_idempotent_witness :
    Connection.Close { name := "w", closed := true, sockCloseCount := 1 } none =
      (none, { name := "w", closed := true, sockCloseCount := 1 }) ∧
    ((Connection.Close { name := "w", closed := true, sockCloseCount := 1 } none).2.Close
      none).2 = (Connection.Close { name := "w", closed := true, sockCloseCount := 1 } none).2 ∧
    (connRun (newConnection "posts" "") [ConnOp.close none, ConnOp.close none]).sockCloseCount
      ≤ 1 :=
  C10_close_idempotent { name := "w", closed := true, sockCloseCount := 1 } none none
    "posts" "" [ConnOp.close none, ConnOp.close none] rfl

end Cocobase
